import Mathlib

/-!
Shallow embedding of the core of the `rai-algo-trading-terminal` repository:
the historical backtest engines (`src/rai_algo/backtest.py` and
`src/rai_algo/backtest/core.py`), the risk manager (`src/rai_algo/risk.py`),
the demo/paper execution engine (`src/rai_algo/demo_trader.py`), and the
domain model (`src/rai_algo/data_types.py`).

Conventions used throughout:
* Python `float` values are modelled as `ℚ` (exact rational arithmetic).
* Python `datetime` timestamps are modelled as `ℤ` (seconds); calendar dates
  are modelled as `ℤ` day numbers and wall-clock hours as `ℕ`, passed
  explicitly where the source calls `datetime.now()`.
* A raised Python exception is modelled as the `.error` case of `Except`.
* Python truthiness of an `Optional[float]` (`if x:`) is modelled explicitly:
  both `None` and `0.0` are falsy.
* `sharpe_ratio` (which needs a real-valued `sqrt`) is omitted from the
  embedded `BacktestResult`; no verified property refers to it.
-/

namespace RaiAlgo

/-- Embeds `SignalType` enum from `data_types.py`: BUY/SELL/HOLD/CLOSE. -/
inductive SignalType where
  | buy
  | sell
  | hold
  | close
deriving DecidableEq, Repr

/-- Embeds `MarketData` dataclass from `data_types.py` (one OHLCV bar).
The `metadata` dict is not modelled (never read by the embedded code). -/
structure MarketData where
  timestamp : ℤ
  openP : ℚ
  high : ℚ
  low : ℚ
  close : ℚ
  volume : ℚ
deriving DecidableEq, Repr

/-- Embeds `MarketData.price` property: alias for `close`. -/
def MarketData.price (m : MarketData) : ℚ := m.close

/-- Embeds `Signal` dataclass from `data_types.py`. -/
structure Signal where
  signal_type : SignalType
  strength : ℚ
  price : ℚ
  timestamp : ℤ
deriving DecidableEq, Repr

/-- Embeds `Position` dataclass from `data_types.py`. -/
structure Position where
  entry_price : ℚ
  size : ℚ
  entry_time : ℤ
  current_price : Option ℚ := none
  exit_time : Option ℤ := none
  exit_price : Option ℚ := none
  stop_loss : Option ℚ := none
  take_profit : Option ℚ := none
  signal_type : SignalType := .buy
deriving DecidableEq, Repr

/-- Embeds `Position.is_open` property: a position is open iff `exit_time is None`. -/
def Position.is_open (p : Position) : Bool := p.exit_time.isNone

/-- Embeds `Position.pnl` property: `None` while `exit_price is None`, else signed by side. -/
def Position.pnl (p : Position) : Option ℚ :=
  match p.exit_price with
  | none => none
  | some ep =>
      if p.signal_type = .buy then some ((ep - p.entry_price) * p.size)
      else some ((p.entry_price - ep) * p.size)

/-- Embeds `Position.update_exit(timestamp, price)`. -/
def Position.update_exit (p : Position) (timestamp : ℤ) (price : ℚ) : Position :=
  { p with exit_time := some timestamp, exit_price := some price }

/-- Python truthiness of an `Optional[float]` guard (`if x and ...`):
`None` and `0.0` are both falsy. -/
def optTrig (o : Option ℚ) (cond : ℚ → Bool) : Bool :=
  match o with
  | none => false
  | some v => if v = 0 then false else cond v

/-- Embeds `BacktestResult` dataclass from `data_types.py`.  `profit_factor` is a
Python float that can be `float('inf')`, modelled by `PyFloat` below;
`sharpe_ratio` is omitted (needs real `sqrt`, unused by any claim). -/
inductive PyFloat where
  | val (q : ℚ)
  | posInf
deriving DecidableEq, Repr

structure BacktestResult where
  total_trades : ℕ
  winning_trades : ℕ
  losing_trades : ℕ
  win_rate : ℚ
  total_return : ℚ
  total_return_pct : ℚ
  max_drawdown : ℚ
  max_drawdown_pct : ℚ
  avg_win : ℚ
  avg_loss : ℚ
  profit_factor : PyFloat
  avg_trade_duration : ℚ
  trades : List Position
  equity_curve : List ℚ
  drawdown_curve : List ℚ
deriving DecidableEq, Repr

end RaiAlgo

namespace Backtest
/-! Embedding of `src/rai_algo/backtest.py` (`class BacktestEngine`). -/

open RaiAlgo

/-- Engine construction parameters (`BacktestEngine.__init__`). -/
structure EngineCfg where
  initial_capital : ℚ := 10000
  commission : ℚ := 1/1000
  slippage : ℚ := 1/2000
  position_size_pct : ℚ := 1
deriving Repr

/-- A strategy (`BaseStrategy` contract) with internal state `σ`:
`generate_signal` may raise (modelled by `Except String`); `reset` is
modelled by starting from `init`; the `parameters` dict is modelled by the
two keys the engine reads (`stop_loss_pct`, `take_profit_pct`). -/
structure Strategy (σ : Type) where
  init : σ
  required_history_length : ℕ
  generate_signal : σ → MarketData → List MarketData → Option Position → Except String Signal
  update_state : σ → MarketData → Signal → σ
  stop_loss_pct : Option ℚ := none
  take_profit_pct : Option ℚ := none

/-- Embeds `BacktestEngine._apply_slippage` — note the source ignores `is_entry`:
BUY side pays `price*(1+slippage)`, otherwise receives `price*(1-slippage)`. -/
def apply_slippage (cfg : EngineCfg) (price : ℚ) (signal_type : SignalType)
    (_is_entry : Bool) : ℚ :=
  if signal_type = .buy then price * (1 + cfg.slippage)
  else price * (1 - cfg.slippage)

/-- Embeds `BacktestEngine._calculate_position_size`. -/
def calculate_position_size (cfg : EngineCfg) (capital price : ℚ) : ℚ :=
  capital * cfg.position_size_pct / price

/-- Embeds `BacktestEngine._calculate_pnl`. -/
def calculate_pnl (position : Position) (exit_price : ℚ) : ℚ :=
  if position.signal_type = .buy then (exit_price - position.entry_price) * position.size
  else (position.entry_price - exit_price) * position.size

/-- Embeds `BacktestEngine._check_exit_conditions`: tested against the bar's
high/low; `if position.stop_loss and ...` uses Python truthiness. -/
def check_exit_conditions (position : Position) (market_data : MarketData) : Bool :=
  if position.signal_type = .buy then
    optTrig position.stop_loss (fun sl => market_data.low ≤ sl) ||
    optTrig position.take_profit (fun tp => market_data.high ≥ tp)
  else
    optTrig position.stop_loss (fun sl => market_data.high ≥ sl) ||
    optTrig position.take_profit (fun tp => market_data.low ≤ tp)

/-- The mutable loop state of `BacktestEngine.run`, plus the strategy state. -/
structure LoopState (σ : Type) where
  capital : ℚ
  positions : List Position
  current_position : Option Position
  equity_curve : List ℚ
  drawdown_curve : List ℚ
  peak_equity : ℚ
  sstate : σ

/-- The close-position block shared by the three closing sites of `run`
(exit-condition close, CLOSE-signal close, final force-close). -/
def closePosition (cfg : EngineCfg) (st : LoopState σ) (pos : Position)
    (timestamp : ℤ) (price : ℚ) : LoopState σ :=
  let exit_price := apply_slippage cfg price pos.signal_type false
  let commission_cost := pos.size * exit_price * cfg.commission
  let pnl := calculate_pnl pos exit_price
  let pnl_after_commission := pnl - commission_cost
  let pos' := pos.update_exit timestamp exit_price
  let capital' := st.capital + pnl_after_commission
  let peak' := if capital' > st.peak_equity then capital' else st.peak_equity
  { st with
    capital := capital'
    positions := st.positions ++ [pos']
    current_position := none
    equity_curve := st.equity_curve ++ [capital']
    peak_equity := peak'
    drawdown_curve := st.drawdown_curve ++ [(peak' - capital') / peak' * 100] }

/-- The exit-conditions block at the top of each `run` iteration: if a
position is open and stop-loss/take-profit triggers, close it. -/
def closeIfExit (cfg : EngineCfg) (st : LoopState σ) (current_data : MarketData) :
    LoopState σ :=
  match st.current_position with
  | some pos =>
      if pos.is_open && check_exit_conditions pos current_data then
        closePosition cfg st pos current_data.timestamp current_data.price
      else st
  | none => st

/-- The signal-processing block of `run` (after `generate_signal` returned). -/
def processSignal (cfg : EngineCfg) (strat : Strategy σ) (st : LoopState σ)
    (current_data : MarketData) (signal : Signal) : LoopState σ :=
  if (signal.signal_type = .buy ∨ signal.signal_type = .sell) &&
      st.current_position.isNone then
    let entry_price := apply_slippage cfg current_data.price signal.signal_type true
    let position_size := calculate_position_size cfg st.capital entry_price
    let commission_cost := position_size * entry_price * cfg.commission
    let capital' := st.capital - commission_cost
    let base : Position :=
      { entry_price := entry_price
        size := position_size
        entry_time := current_data.timestamp
        signal_type := if signal.signal_type = .buy then .buy else .sell }
    let withSL : Position :=
      match strat.stop_loss_pct with
      | some sl_pct =>
          if signal.signal_type = .buy then
            { base with stop_loss := some (entry_price * (1 - sl_pct)) }
          else
            { base with stop_loss := some (entry_price * (1 + sl_pct)) }
      | none => base
    let withTP : Position :=
      match strat.take_profit_pct with
      | some tp_pct =>
          if signal.signal_type = .buy then
            { withSL with take_profit := some (entry_price * (1 + tp_pct)) }
          else
            { withSL with take_profit := some (entry_price * (1 - tp_pct)) }
      | none => withSL
    { st with
      capital := capital'
      current_position := some withTP
      equity_curve := st.equity_curve ++ [capital']
      drawdown_curve :=
        st.drawdown_curve ++ [(st.peak_equity - capital') / st.peak_equity * 100] }
  else if signal.signal_type = .close && st.current_position.isSome then
    match st.current_position with
    | some pos => closePosition cfg st pos current_data.timestamp current_data.price
    | none => st
  else st

/-- One iteration of the `run` loop: exit check, then `generate_signal`
(whose exception propagates — there is no `try` in `backtest.py`), then
signal processing, then `strategy.update_state`. -/
def stepBar (cfg : EngineCfg) (strat : Strategy σ) (st : LoopState σ)
    (history : List MarketData) (current_data : MarketData) :
    Except String (LoopState σ) :=
  (strat.generate_signal (closeIfExit cfg st current_data).sstate current_data
      history (closeIfExit cfg st current_data).current_position).map
    (fun signal =>
      { processSignal cfg strat (closeIfExit cfg st current_data) current_data
          signal with
        sstate := strat.update_state
          (processSignal cfg strat (closeIfExit cfg st current_data) current_data
            signal).sstate
          current_data signal })

/-- The lookback slice `market_data[max(0, i - lookback):i]`. -/
def historySlice (data : List MarketData) (lookback i : ℕ) : List MarketData :=
  (data.drop (i - lookback)).take (i - (i - lookback))

/-- The loop `for i in range(len(market_data))` of `run`, walking the list
of bars while carrying the index `i` (the list argument is the suffix
`data[i:]`, so the walked bar is `data[i]`). -/
def runBarsAux (cfg : EngineCfg) (strat : Strategy σ) (data : List MarketData) :
    ℕ → List MarketData → LoopState σ → Except String (LoopState σ)
  | _, [], st => .ok st
  | i, bar :: rest, st =>
      match stepBar cfg strat st
          (historySlice data strat.required_history_length i) bar with
      | .error e => .error e
      | .ok st' => runBarsAux cfg strat data (i + 1) rest st'

/-- The full bar loop over `data`. -/
def runBars (cfg : EngineCfg) (strat : Strategy σ) (data : List MarketData)
    (st : LoopState σ) : Except String (LoopState σ) :=
  runBarsAux cfg strat data 0 data st

/-- The force-close block after the loop of `run`: any still-open position is
closed at the final bar's close price (with slippage and commission). -/
def forceClose (cfg : EngineCfg) (final_data : MarketData) (st : LoopState σ) :
    LoopState σ :=
  match st.current_position with
  | some pos =>
      if pos.is_open then closePosition cfg st pos final_data.timestamp final_data.price
      else st
  | none => st

/-- A trade is winning in `_calculate_metrics` iff `p.pnl and p.pnl > 0`
(Python truthiness: `None` and `0.0` excluded). -/
def isWinning (p : Position) : Bool :=
  match p.pnl with
  | none => false
  | some v => decide (0 < v)

/-- A trade is losing in `_calculate_metrics` iff `p.pnl and p.pnl <= 0`
(Python truthiness: `None` and `0.0` excluded, so effectively `pnl < 0`). -/
def isLosing (p : Position) : Bool :=
  match p.pnl with
  | none => false
  | some v => decide (v < 0) -- `v ≠ 0 && v ≤ 0`

/-- Sum of the `pnl` of a list of positions (`sum(p.pnl for p in ...)`). -/
def pnlSum (ps : List Position) : ℚ :=
  (ps.map (fun p => (p.pnl).getD 0)).sum

/-- Embeds `BacktestEngine._calculate_metrics`.  `sharpe_ratio` is omitted (real
`sqrt`); all other fields follow the source. -/
def calculate_metrics (cfg : EngineCfg) (positions : List Position)
    (equity_curve drawdown_curve : List ℚ) : BacktestResult :=
  if positions = [] then
    { total_trades := 0, winning_trades := 0, losing_trades := 0
      win_rate := 0, total_return := 0, total_return_pct := 0
      max_drawdown := 0, max_drawdown_pct := 0
      avg_win := 0, avg_loss := 0, profit_factor := .val 0
      avg_trade_duration := 0
      trades := positions, equity_curve := equity_curve
      drawdown_curve := drawdown_curve }
  else
    let final_capital := equity_curve.getLastD 0
    let total_return := final_capital - cfg.initial_capital
    let total_return_pct := total_return / cfg.initial_capital * 100
    let winning_trades := positions.filter isWinning
    let losing_trades := positions.filter isLosing
    let total_trades := positions.length
    let win_rate : ℚ :=
      if total_trades > 0 then (winning_trades.length : ℚ) / total_trades else 0
    let avg_win : ℚ :=
      if winning_trades ≠ [] then pnlSum winning_trades / winning_trades.length else 0
    let avg_loss : ℚ :=
      if losing_trades ≠ [] then |pnlSum losing_trades / losing_trades.length| else 0
    let total_profit : ℚ := if winning_trades ≠ [] then pnlSum winning_trades else 0
    let total_loss : ℚ := if losing_trades ≠ [] then |pnlSum losing_trades| else 0
    let profit_factor : PyFloat :=
      if total_loss > 0 then .val (total_profit / total_loss)
      else if total_profit > 0 then .posInf else .val 0
    let max_drawdown : ℚ := (drawdown_curve.foldl max 0)
    let durations := (positions.filterMap
      (fun p => p.exit_time.map (fun et => ((et - p.entry_time : ℤ) : ℚ) / 3600)))
    let avg_trade_duration : ℚ :=
      if durations ≠ [] then durations.sum / durations.length else 0
    { total_trades := total_trades
      winning_trades := winning_trades.length
      losing_trades := losing_trades.length
      win_rate := win_rate
      total_return := total_return
      total_return_pct := total_return_pct
      max_drawdown := max_drawdown * cfg.initial_capital / 100
      max_drawdown_pct := max_drawdown
      avg_win := avg_win
      avg_loss := avg_loss
      profit_factor := profit_factor
      avg_trade_duration := avg_trade_duration
      trades := positions
      equity_curve := equity_curve
      drawdown_curve := drawdown_curve }

/-- Errors `run` can signal: `ValueError("Market data cannot be empty")`
for empty input, or a propagated strategy exception (no `try` in the source
wraps `generate_signal`). -/
inductive RunError where
  | emptyData
  | strategyError (msg : String)
deriving DecidableEq, Repr

/-- Stable insertion step: `x` is placed before the first element with a
strictly later timestamp (so, after nothing with an equal key when used by
`sortMD` below). -/
def insertByTS (x : MarketData) : List MarketData → List MarketData
  | [] => [x]
  | y :: ys => if x.timestamp ≤ y.timestamp then x :: y :: ys else y :: insertByTS x ys

/-- Stable sort of market data by timestamp, modelling Python's stable
`sorted(market_data, key=lambda x: x.timestamp)` as a stable insertion
sort (equal-timestamp bars keep their input order). -/
def sortMD (data : List MarketData) : List MarketData :=
  data.foldr insertByTS []

/-- The initial tracking state of `run` (capital, empty positions, seeded
equity/drawdown curves, reset strategy state). -/
def initState (cfg : EngineCfg) (strat : Strategy σ) : LoopState σ :=
  { capital := cfg.initial_capital
    positions := []
    current_position := none
    equity_curve := [cfg.initial_capital]
    drawdown_curve := [0]
    peak_equity := cfg.initial_capital
    sstate := strat.init }

/-- The tail of `run`: a propagated strategy exception becomes a
`strategyError`; otherwise the remaining open position is force-closed and
metrics are computed. -/
def finishRun (cfg : EngineCfg) (final_data : MarketData)
    (r : Except String (LoopState σ)) : Except RunError BacktestResult :=
  match r with
  | .error msg => .error (.strategyError msg)
  | .ok st =>
      let st' := forceClose cfg final_data st
      .ok (calculate_metrics cfg st'.positions st'.equity_curve st'.drawdown_curve)

/-- Embeds `BacktestEngine.run`. -/
def run (cfg : EngineCfg) (strat : Strategy σ) (market_data : List MarketData) :
    Except RunError BacktestResult :=
  if market_data = [] then .error .emptyData
  else
    match (sortMD market_data).getLast? with
    | none => .error .emptyData  -- unreachable: sorting preserves nonemptiness
    | some final_data =>
        finishRun cfg final_data
          (runBars cfg strat (sortMD market_data) (initState cfg strat))

end Backtest

namespace BacktestCore
/-! Embedding of `src/rai_algo/backtest/core.py` (the generic bar-based
`BacktestEngine`).  DataFrame rows are modelled as a list of bars; the
pandas/polars normalisation, the `ImportError`, and the missing-timestamp
`ValueError` are outside the model (the claims concern the bar loop). -/

open RaiAlgo

/-- One DataFrame row (timestamp, open, high, low, close, volume). -/
structure Row where
  timestamp : ℤ
  openP : ℚ
  high : ℚ
  low : ℚ
  close : ℚ
  volume : ℚ
deriving DecidableEq, Repr

/-- Engine parameters: `initial_capital`, `FixedFeeModel(fee_rate)`,
`FixedSlippageModel(slippage_rate)`. -/
structure CoreCfg where
  initial_capital : ℚ := 10000
  fee_rate : ℚ := 1/1000
  slippage_rate : ℚ := 1/2000
deriving Repr

/-- Embeds `FixedFeeModel.calculate_fee` (the `is_entry` flag is unused). -/
def calculate_fee (cfg : CoreCfg) (price size : ℚ) (_is_entry : Bool) : ℚ :=
  price * size * cfg.fee_rate

/-- Embeds `FixedSlippageModel.apply_slippage` (the `size` argument is unused). -/
def core_apply_slippage (cfg : CoreCfg) (price _size : ℚ) (is_buy : Bool) : ℚ :=
  if is_buy then price * (1 + cfg.slippage_rate)
  else price * (1 - cfg.slippage_rate)

/-- Embeds `Trade` class from `backtest/core.py` (entry_time stays `Optional`
because the source stores `position_entry_time` unconditionally). -/
structure Trade where
  entry_time : Option ℤ
  exit_time : ℤ
  entry_price : ℚ
  exit_price : ℚ
  size : ℚ
  is_long : Bool
  fee_entry : ℚ
  fee_exit : ℚ
deriving DecidableEq, Repr

/-- A strategy callback `strategy(data_slice, i, state)` with state `σ`.
A raised exception is the `.error` case of the first component; the second
component is the state left behind by the call (the Python `strategy_state`
dict is mutated in place, so the state persists even when the call raises). -/
def CoreStrategy (σ : Type) := List Row → ℕ → σ → Except String ℚ × σ

/-- The mutable loop state of `BacktestEngine.run` in `core.py`. -/
structure CoreState (σ : Type) where
  cash : ℚ
  position_size : ℚ
  position_entry_price : ℚ
  position_entry_time : Option ℤ
  position_is_long : Bool
  trades : List Trade
  equity_curve : List ℚ
  timestamps : List ℤ
  sstate : σ

/-- The `try/except` around the strategy call: an exception is logged and
the bar's target becomes `0.0`. -/
def resolveTarget (r : Except String ℚ) : ℚ :=
  match r with
  | .ok t => t
  | .error _ => 0

/-- One iteration of the bar loop of `core.py`'s `run`. -/
def coreStep (cfg : CoreCfg) (strat : CoreStrategy σ) (data : List Row)
    (i : ℕ) (row : Row) (st : CoreState σ) : CoreState σ :=
  let timestamp := row.timestamp
  let current_price := row.close
  let data_slice := data.take (i + 1)
  let (res, sstate') := strat data_slice i st.sstate
  let target0 := resolveTarget res
  let target_position : ℚ :=
    if target0 > 1 then 1 else if target0 < -1 then -1 else target0
  let current_position_signal : ℚ :=
    if st.position_size > 0 then 1 else if st.position_size < 0 then -1 else 0
  let st1 : CoreState σ := { st with sstate := sstate' }
  let st2 : CoreState σ :=
    if |target_position - current_position_signal| > 1/100 then
      -- close existing position if any
      let stc :=
        if st1.position_size ≠ 0 then
          let exit_price := core_apply_slippage cfg current_price
            |st1.position_size| (!st1.position_is_long)
          let fee_exit := calculate_fee cfg exit_price |st1.position_size| false
          let gross_pnl :=
            if st1.position_is_long then
              (exit_price - st1.position_entry_price) * st1.position_size
            else
              (st1.position_entry_price - exit_price) * |st1.position_size|
          let net_pnl := gross_pnl - fee_exit
          { st1 with
            cash := st1.cash + net_pnl
            trades := st1.trades ++ [{
              entry_time := st1.position_entry_time
              exit_time := timestamp
              entry_price := st1.position_entry_price
              exit_price := exit_price
              size := |st1.position_size|
              is_long := st1.position_is_long
              fee_entry := 0
              fee_exit := fee_exit }]
            position_size := 0
            position_entry_price := 0
            position_entry_time := none }
        else st1
      -- open new position if target is not zero
      if |target_position| > 1/100 then
        let available_capital := stc.cash
        let target_capital := available_capital * |target_position|
        let entry_price := core_apply_slippage cfg current_price
          (target_capital / current_price) (target_position > 0)
        let position_size_units := target_capital / entry_price
        let fee_entry := calculate_fee cfg entry_price position_size_units true
        { stc with
          cash := stc.cash - fee_entry
          position_size :=
            if target_position > 0 then position_size_units else -position_size_units
          position_entry_price := entry_price
          position_entry_time := some timestamp
          position_is_long := target_position > 0 }
      else stc
    else st1
  let position_value : ℚ :=
    if st2.position_size ≠ 0 then
      if st2.position_is_long then st2.position_size * current_price
      else -st2.position_size * current_price
    else 0
  { st2 with
    equity_curve := st2.equity_curve ++ [st2.cash + position_value]
    timestamps := st2.timestamps ++ [timestamp] }

/-- The bar loop of `core.py`'s `run`, walking the list of rows while
carrying the index `i` (the list argument is the suffix `data[i:]`). -/
def coreRunBarsAux (cfg : CoreCfg) (strat : CoreStrategy σ) (data : List Row) :
    ℕ → List Row → CoreState σ → CoreState σ
  | _, [], st => st
  | i, row :: rest, st =>
      coreRunBarsAux cfg strat data (i + 1) rest (coreStep cfg strat data i row st)

/-- The full bar loop over `data`. -/
def coreRunBars (cfg : CoreCfg) (strat : CoreStrategy σ) (data : List Row)
    (st : CoreState σ) : CoreState σ :=
  coreRunBarsAux cfg strat data 0 data st

/-- Replace the last element of a list (`equity_curve[-1] = cash`). -/
def setLast (l : List ℚ) (v : ℚ) : List ℚ :=
  l.dropLast ++ [v]

/-- The post-loop force-close of `core.py`'s `run`. -/
def coreFinal (cfg : CoreCfg) (data : List Row) (st : CoreState σ) : CoreState σ :=
  if st.position_size ≠ 0 then
    match data.getLast? with
    | none => st
    | some final_row =>
        let final_price := final_row.close
        let exit_price := core_apply_slippage cfg final_price
          |st.position_size| (!st.position_is_long)
        let fee_exit := calculate_fee cfg exit_price |st.position_size| false
        let gross_pnl :=
          if st.position_is_long then
            (exit_price - st.position_entry_price) * st.position_size
          else
            (st.position_entry_price - exit_price) * |st.position_size|
        let net_pnl := gross_pnl - fee_exit
        let cash' := st.cash + net_pnl
        { st with
          cash := cash'
          trades := st.trades ++ [{
            entry_time := st.position_entry_time
            exit_time := final_row.timestamp
            entry_price := st.position_entry_price
            exit_price := exit_price
            size := |st.position_size|
            is_long := st.position_is_long
            fee_entry := 0
            fee_exit := fee_exit }]
          equity_curve := setLast st.equity_curve cash'
          position_size := 0 }
  else st

/-- Result dictionary of `core.py`'s `run`. -/
structure CoreResult where
  trades : List Trade
  equity_curve : List ℚ
  timestamps : List ℤ
  cash : ℚ
  position : ℚ
  initial_capital : ℚ

/-- Embeds `BacktestEngine.run` from `backtest/core.py`.  Total: every strategy
exception is caught inside the loop.  (On an empty frame the source would
raise an IndexError building the initial `timestamps`; the claims only
concern the strategy-exception handling, and the initial timestamp entry is
taken from `head?`.) -/
def coreRun (cfg : CoreCfg) (strat : CoreStrategy σ) (data : List Row) (s0 : σ) :
    CoreResult :=
  let st0 : CoreState σ :=
    { cash := cfg.initial_capital
      position_size := 0
      position_entry_price := 0
      position_entry_time := none
      position_is_long := true
      trades := []
      equity_curve := [cfg.initial_capital]
      timestamps := (data.head?.map (fun r => [r.timestamp])).getD []
      sstate := s0 }
  let st := coreFinal cfg data (coreRunBars cfg strat data st0)
  { trades := st.trades
    equity_curve := st.equity_curve
    timestamps := st.timestamps
    cash := st.cash
    position := st.position_size
    initial_capital := cfg.initial_capital }

/-- A strategy transformed so that every bar where it would raise instead
returns target `0.0` (with the same resulting state). -/
def errAsFlat (strat : CoreStrategy σ) : CoreStrategy σ :=
  fun slice i s =>
    match strat slice i s with
    | (.error _, s') => (.ok 0, s')
    | (.ok t, s') => (.ok t, s')

end BacktestCore

namespace Risk
/-! Embedding of `src/rai_algo/risk.py` (`RiskLimits`, `DailyStats`,
`RiskManager`).  Wall-clock reads (`datetime.now()`) are passed explicitly:
the calendar day as `today : ℤ` and the clock hour as `hour : ℕ`.  The
formatted kill/rejection message strings are modelled by inductive reason
values carrying the numbers that the source interpolates. -/

open RaiAlgo

/-- Embeds `RiskLimits` dataclass (defaults from the source). -/
structure RiskLimits where
  max_daily_loss : ℚ := 1/20
  max_position_size : ℚ := 1/10
  max_total_exposure : ℚ := 1/2
  max_drawdown : ℚ := 3/20
  min_balance : ℚ := 0
  max_orders_per_day : ℕ := 100
  max_orders_per_hour : ℕ := 20
deriving Repr

/-- Embeds `DailyStats` dataclass.  `orders_by_hour` is the dict `hour -> count`
with default 0 (`dict.get(hour, 0)`). -/
structure DailyStats where
  date : ℤ
  starting_balance : ℚ
  current_balance : ℚ
  total_pnl : ℚ := 0
  realized_pnl : ℚ := 0
  unrealized_pnl : ℚ := 0
  trades_count : ℕ := 0
  orders_count : ℕ := 0
  orders_by_hour : ℕ → ℕ := fun _ => 0
  max_drawdown : ℚ := 0
  peak_balance : ℚ := 0

/-- The `kill(reason)` message strings, modelled with their interpolated
numbers (`f"Daily loss limit exceeded: {pct} >= {lim}"`, etc.). -/
inductive KillReason where
  | dailyLoss (pct lim : ℚ)
  | maxDrawdown (dd lim : ℚ)
  | balanceBelowMin (bal minB : ℚ)
deriving DecidableEq, Repr

/-- The rejection messages returned by `validate_signal`. -/
inductive RejectReason where
  | killed (r : Option KillReason)    -- "Trading killed: {kill_reason}"
  | positionSize                      -- "Position size exceeds limit"
  | totalExposure                     -- "Total exposure exceeds limit"
  | orderRate                         -- "Order rate limit exceeded"
deriving DecidableEq, Repr

/-- The mutable state of a `RiskManager` instance. -/
structure RiskState where
  risk_limits : RiskLimits
  initial_balance : ℚ
  current_balance : ℚ
  daily_stats : Option DailyStats
  is_killed : Bool
  kill_reason : Option KillReason

/-- Embeds `RiskManager._reset_daily_stats`: start fresh stats when there are none
yet or when the calendar date changed (`if self.daily_stats is None or
self.daily_stats.date.date() != today`). -/
def reset_daily_stats (today : ℤ) (st : RiskState) : RiskState :=
  match st.daily_stats with
  | none =>
      { st with daily_stats := some (
        { date := today
          starting_balance := st.current_balance
          current_balance := st.current_balance
          peak_balance := st.current_balance } : DailyStats) }
  | some ds =>
      if ds.date ≠ today then
        { st with daily_stats := some (
          { date := today
            starting_balance := st.current_balance
            current_balance := st.current_balance
            peak_balance := st.current_balance } : DailyStats) }
      else st

/-- Embeds `RiskManager.__init__` (which calls `_reset_daily_stats`). -/
def mkRiskManager (today : ℤ) (initial_balance : ℚ) (risk_limits : RiskLimits) :
    RiskState :=
  reset_daily_stats today
    { risk_limits := risk_limits
      initial_balance := initial_balance
      current_balance := initial_balance
      daily_stats := none
      is_killed := false
      kill_reason := none }

/-- Embeds `RiskManager.kill(reason)`: only ever sets the latch, and only records
the first reason (`if not self.is_killed`). -/
def kill (st : RiskState) (reason : KillReason) : RiskState :=
  if st.is_killed then st
  else { st with is_killed := true, kill_reason := some reason }

/-- Embeds `RiskManager.reset_kill_switch()`. -/
def reset_kill_switch (st : RiskState) : RiskState :=
  { st with is_killed := false, kill_reason := none }

/-- Embeds `RiskManager.update_balance(new_balance)` with the wall-clock date
passed explicitly.  (If `peak_balance` ends up `0` the source would raise
`ZeroDivisionError`; `ℚ` division by zero yields `0` here — the verified
properties assume a positive peak.) -/
def update_balance (today : ℤ) (new_balance : ℚ) (st : RiskState) : RiskState :=
  match (reset_daily_stats today st).daily_stats with
  | none => { reset_daily_stats today st with current_balance := new_balance }
  | some ds =>
      let st2 := { reset_daily_stats today st with current_balance := new_balance }
      let peak' := if new_balance > ds.peak_balance then new_balance else ds.peak_balance
      let drawdown := (peak' - new_balance) / peak'
      let mdd := if drawdown > ds.max_drawdown then drawdown else ds.max_drawdown
      let ds' := { ds with
        current_balance := new_balance
        total_pnl := new_balance - ds.starting_balance
        peak_balance := peak'
        max_drawdown := mdd }
      let daily_loss := ds.starting_balance - new_balance
      let daily_loss_pct :=
        if ds.starting_balance > 0 then daily_loss / ds.starting_balance else 0
      let st3 := { st2 with daily_stats := some ds' }
      let st4 :=
        if daily_loss_pct ≥ st3.risk_limits.max_daily_loss then
          kill st3 (.dailyLoss daily_loss_pct st3.risk_limits.max_daily_loss)
        else st3
      let st5 :=
        if mdd ≥ st4.risk_limits.max_drawdown then
          kill st4 (.maxDrawdown mdd st4.risk_limits.max_drawdown)
        else st4
      if new_balance < st5.risk_limits.min_balance then
        kill st5 (.balanceBelowMin new_balance st5.risk_limits.min_balance)
      else st5

/-- The inner position fraction computed by `check_position_size`. -/
def position_pct (limits : RiskLimits) (signal : Signal) (current_balance : ℚ) : ℚ :=
  let max_position_value := current_balance * limits.max_position_size
  let position_value := max_position_value * signal.strength
  if current_balance > 0 then position_value / current_balance else 0

/-- Embeds `RiskManager.check_position_size` (the `price` argument is unused in the
source). -/
def check_position_size (st : RiskState) (signal : Signal) (current_balance : ℚ)
    (_price : ℚ) : Bool :=
  ¬ (position_pct st.risk_limits signal current_balance >
      st.risk_limits.max_position_size)

/-- Models `pos.current_price if pos.current_price else pos.entry_price`
(Python truthiness: `None` and `0.0` fall back to the entry price). -/
def exposurePrice (pos : Position) : ℚ :=
  match pos.current_price with
  | none => pos.entry_price
  | some v => if v = 0 then pos.entry_price else v

/-- Total notional exposure over the open positions of the dict. -/
def totalExposure (positions : List (String × Position)) : ℚ :=
  ((positions.map Prod.snd).filter (fun p => p.is_open)).foldl
    (fun acc p => acc + p.size * exposurePrice p) 0

/-- Embeds `RiskManager.check_total_exposure` — sums only the positions already in
the dict (the proposed new position is not part of the sum). -/
def check_total_exposure (st : RiskState) (positions : List (String × Position))
    (current_balance : ℚ) : Bool :=
  let exposure_pct :=
    if current_balance > 0 then totalExposure positions / current_balance else 0
  ¬ (exposure_pct > st.risk_limits.max_total_exposure)

/-- Embeds `RiskManager.check_order_rate` with the wall-clock hour passed
explicitly. -/
def check_order_rate (hour : ℕ) (st : RiskState) : Bool :=
  match st.daily_stats with
  | none => true
  | some ds =>
      if ds.orders_count ≥ st.risk_limits.max_orders_per_day then false
      else if ds.orders_by_hour hour ≥ st.risk_limits.max_orders_per_hour then false
      else true

/-- Embeds `RiskManager.record_order()`. -/
def record_order (hour : ℕ) (st : RiskState) : RiskState :=
  match st.daily_stats with
  | none => st
  | some ds =>
      { st with daily_stats := some (
        { ds with
          orders_count := ds.orders_count + 1
          orders_by_hour := fun h =>
            if h = hour then ds.orders_by_hour hour + 1
            else ds.orders_by_hour h } : DailyStats) }

/-- Embeds `RiskManager.record_trade(pnl)`. -/
def record_trade (pnl : ℚ) (st : RiskState) : RiskState :=
  match st.daily_stats with
  | none => st
  | some ds =>
      { st with daily_stats := some (
        { ds with
          trades_count := ds.trades_count + 1
          realized_pnl := ds.realized_pnl + pnl } : DailyStats) }

/-- Embeds `RiskManager.validate_signal(signal, positions, symbol, current_price)`
(the `symbol` argument is unused in the source; the clock hour feeds the
order-rate check). -/
def validate_signal (st : RiskState) (hour : ℕ) (signal : Signal)
    (positions : List (String × Position)) (_symbol : String)
    (current_price : ℚ) : Bool × Option RejectReason :=
  if st.is_killed then (false, some (.killed st.kill_reason))
  else if ¬ check_position_size st signal st.current_balance current_price then
    (false, some .positionSize)
  else if (signal.signal_type = .buy ∨ signal.signal_type = .sell) &&
      ¬ check_total_exposure st positions st.current_balance then
    (false, some .totalExposure)
  else if ¬ check_order_rate hour st then (false, some .orderRate)
  else (true, none)

/-- The kill-switch-preserving operations on a `RiskManager`
(everything except `reset_kill_switch`), for the monotonicity claim. -/
inductive RiskOp where
  | updateBalance (today : ℤ) (new_balance : ℚ)
  | killOp (reason : KillReason)
  | recordOrder (hour : ℕ)
  | recordTrade (pnl : ℚ)

/-- Apply one operation to the risk-manager state. -/
def applyRiskOp (st : RiskState) : RiskOp → RiskState
  | .updateBalance today nb => update_balance today nb st
  | .killOp r => kill st r
  | .recordOrder h => record_order h st
  | .recordTrade p => record_trade p st

end Risk

namespace DemoTrader
/-! Embedding of the exit-condition logic of `src/rai_algo/demo_trader.py`
(`DemoTrader._check_exit_conditions` and the `_close_position` it calls).
The exit check compares the tick's `price` (= close) — not its high/low —
against stop-loss/take-profit, and `_close_position` goes straight to the
virtual books: no `RiskManager` method is consulted on the exit path. -/

open RaiAlgo

/-- Embeds `DemoPosition` dataclass (fields used by the exit path). -/
structure DemoPosition where
  symbol : String
  side : String            -- "long" or "short"
  entry_price : ℚ
  entry_time : ℤ
  size : ℚ
  stop_loss : Option ℚ := none
  take_profit : Option ℚ := none
  current_price : Option ℚ := none
deriving DecidableEq, Repr

/-- Why `_check_exit_conditions` decided to close (the `reason` string). -/
inductive ExitReason where
  | stopLoss
  | takeProfit
deriving DecidableEq, Repr

/-- The decision logic of `DemoTrader._check_exit_conditions` for the
tracked symbol's position: returns the close reason, or `none` when the
position is kept.  `current_price = market_data.price` (the close) —
the bar's high/low are never consulted.  `if position.stop_loss:` used
Python truthiness (`None`/`0.0` falsy). -/
def check_exit_decision (position : DemoPosition) (market_data : MarketData) :
    Option ExitReason :=
  let current_price := market_data.price
  if optTrig position.stop_loss (fun sl =>
      (position.side = "long" && current_price ≤ sl) ||
      (position.side = "short" && current_price ≥ sl)) then
    some .stopLoss
  else if optTrig position.take_profit (fun tp =>
      (position.side = "long" && current_price ≥ tp) ||
      (position.side = "short" && current_price ≤ tp)) then
    some .takeProfit
  else none

end DemoTrader

namespace DemoTrader

/-- Demo trader cost configuration (`DemoTraderConfig`). -/
structure DemoCfg where
  commission_rate : ℚ := 1/1000
  slippage_rate : ℚ := 1/2000
deriving Repr

/-- Embeds `TradeType` enum. -/
inductive TradeType where
  | entry
  | exit
  | tp
  | sl
deriving DecidableEq, Repr

/-- Embeds `DemoTrade` dataclass (fields written by the exit path). -/
structure DemoTrade where
  timestamp : ℤ
  type : TradeType
  symbol : String
  side : String
  price : ℚ
  size : ℚ
  reason : String
  entry_price : Option ℚ := none
  entry_time : Option ℤ := none
  pnl : Option ℚ := none
  pnl_pct : Option ℚ := none
deriving DecidableEq, Repr

/-- The `DemoTrader` fields the exit path reads or writes, including the
trader's `risk_manager` (held but never consulted on this path). -/
structure DemoBooks where
  virtual_capital : ℚ
  virtual_cash : ℚ
  positions : List (String × DemoPosition)
  trades : List DemoTrade
  market_data_history : List RaiAlgo.MarketData
  risk : Risk.RiskState

/-- Models `p.current_price or 0` (Python truthiness; `None` and `0.0` give `0`). -/
def cpOr0 (p : DemoPosition) : ℚ :=
  match p.current_price with
  | none => 0
  | some v => v

/-- Embeds `DemoTrader._close_position(symbol, reason, metadata)`; `now` stands for
the `datetime.now()` used for the trade record.  It books the exit against
the virtual cash/capital directly — no `RiskManager` method is called. -/
def close_position (cfg : DemoCfg) (now : ℤ) (symbol : String) (reason : String)
    (books : DemoBooks) : DemoBooks :=
  match (books.positions.lookup symbol, books.market_data_history.getLast?) with
  | (some position, some market_data) =>
      let exit_price :=
        if position.side = "long" then market_data.price * (1 - cfg.slippage_rate)
        else market_data.price * (1 + cfg.slippage_rate)
      let commission := position.size * exit_price * cfg.commission_rate
      let gross_pnl :=
        if position.side = "long" then (exit_price - position.entry_price) * position.size
        else (position.entry_price - exit_price) * position.size
      let net_pnl := gross_pnl - commission
      let pnl_pct := net_pnl / (position.entry_price * position.size) * 100
      let cash' :=
        if position.side = "long" then
          books.virtual_cash + (position.size * exit_price - commission)
        else
          books.virtual_cash + (position.size * position.entry_price * (1/10) + net_pnl)
      let others := (books.positions.map Prod.snd).filter (fun p => p ≠ position)
      let capital' := cash' + (others.map (fun p => p.size * cpOr0 p)).sum
      let trade_type :=
        if reason = "stop_loss" then TradeType.sl
        else if reason = "take_profit" then TradeType.tp
        else TradeType.exit
      { books with
        virtual_cash := cash'
        virtual_capital := capital'
        trades := books.trades ++ [{
          timestamp := now
          type := trade_type
          symbol := symbol
          side := position.side
          price := exit_price
          size := position.size
          reason := reason
          entry_price := some position.entry_price
          entry_time := some position.entry_time
          pnl := some net_pnl
          pnl_pct := some pnl_pct }]
        positions := books.positions.filter (fun kv => kv.1 ≠ symbol) }
  | _ => books

end DemoTrader

/-! ## Helper lemmas about the risk manager -/

namespace Risk

/-- The function `kill` always leaves the latch set (it sets it when clear, keeps it when
already set): it can never clear `is_killed`. -/
theorem kill_is_killed (st : RiskState) (r : KillReason) :
    (kill st r).is_killed = true := by
  unfold kill
  split
  · assumption
  · rfl

theorem reset_daily_stats_is_killed (today : ℤ) (st : RiskState) :
    (reset_daily_stats today st).is_killed = st.is_killed := by
  unfold reset_daily_stats
  split <;> first | rfl | (split <;> rfl)

theorem reset_daily_stats_risk_limits (today : ℤ) (st : RiskState) :
    (reset_daily_stats today st).risk_limits = st.risk_limits := by
  unfold reset_daily_stats
  split <;> first | rfl | (split <;> rfl)

theorem reset_daily_stats_current_balance (today : ℤ) (st : RiskState) :
    (reset_daily_stats today st).current_balance = st.current_balance := by
  unfold reset_daily_stats
  split <;> first | rfl | (split <;> rfl)

theorem reset_daily_stats_kill_reason (today : ℤ) (st : RiskState) :
    (reset_daily_stats today st).kill_reason = st.kill_reason := by
  unfold reset_daily_stats
  split <;> first | rfl | (split <;> rfl)

theorem update_balance_is_killed (today : ℤ) (nb : ℚ) (st : RiskState)
    (h : st.is_killed = true) : (update_balance today nb st).is_killed = true := by
  have h1 : (reset_daily_stats today st).is_killed = true := by
    rw [reset_daily_stats_is_killed]; exact h
  unfold update_balance
  split
  · simpa using h1
  · repeat' (first | exact kill_is_killed _ _ | (simpa using h1) | split | dsimp only)

theorem applyRiskOp_is_killed (st : RiskState) (op : RiskOp)
    (h : st.is_killed = true) : (applyRiskOp st op).is_killed = true := by
  cases op with
  | updateBalance today nb => exact update_balance_is_killed today nb st h
  | killOp r => exact kill_is_killed st r
  | recordOrder hr =>
      unfold applyRiskOp record_order
      cases st.daily_stats <;> simpa using h
  | recordTrade p =>
      unfold applyRiskOp record_trade
      cases st.daily_stats <;> simpa using h

theorem foldl_applyRiskOp_is_killed (ops : List RiskOp) (st : RiskState)
    (h : st.is_killed = true) : (ops.foldl applyRiskOp st).is_killed = true := by
  induction ops generalizing st with
  | nil => exact h
  | cons op rest ih => exact ih _ (applyRiskOp_is_killed st op h)

theorem validate_signal_of_killed (st : RiskState) (hour : ℕ) (signal : RaiAlgo.Signal)
    (positions : List (String × RaiAlgo.Position)) (symbol : String) (price : ℚ)
    (h : st.is_killed = true) :
    validate_signal st hour signal positions symbol price
      = (false, some (.killed st.kill_reason)) := by
  unfold validate_signal
  simp [h]

end Risk

/-- C2: once `is_killed` is set, it stays set across every sequence of
`update_balance` / `kill` / `record_order` / `record_trade` operations (all
risk-manager operations except the explicit `reset_kill_switch`), and in any
such reachable state `validate_signal` returns rejected (`False` with a
reason) for every signal, positions map, symbol, price and clock hour;
moreover `kill` itself only ever sets the latch, never clears it. -/
theorem c2_kill_switch_monotone (st : Risk.RiskState) (h : st.is_killed = true)
    (ops : List Risk.RiskOp) (hour : ℕ) (signal : RaiAlgo.Signal)
    (positions : List (String × RaiAlgo.Position)) (symbol : String) (price : ℚ) :
    (ops.foldl Risk.applyRiskOp st).is_killed = true ∧
    (Risk.validate_signal (ops.foldl Risk.applyRiskOp st) hour signal positions
        symbol price).1 = false ∧
    (Risk.validate_signal (ops.foldl Risk.applyRiskOp st) hour signal positions
        symbol price).2.isSome = true ∧
    (∀ (st' : Risk.RiskState) (r : Risk.KillReason),
      (Risk.kill st' r).is_killed = true) := by
  have hk := Risk.foldl_applyRiskOp_is_killed ops st h
  have hv := Risk.validate_signal_of_killed (ops.foldl Risk.applyRiskOp st) hour
    signal positions symbol price hk
  refine ⟨hk, ?_, ?_, fun st' r => Risk.kill_is_killed st' r⟩
  · rw [hv]
  · rw [hv]; rfl

/-- Fixtures for concrete witnesses/counterexamples. -/
def sigBuyEx : RaiAlgo.Signal :=
  { signal_type := .buy, strength := 1, price := 100, timestamp := 0 }

def killedStEx : Risk.RiskState :=
  Risk.kill (Risk.mkRiskManager 0 10000 {}) (.balanceBelowMin 0 0)

theorem c2_kill_switch_monotone_witness :
    (([Risk.RiskOp.updateBalance 0 20000,
       Risk.RiskOp.recordOrder 3]).foldl Risk.applyRiskOp killedStEx).is_killed = true ∧
    (Risk.validate_signal
      (([Risk.RiskOp.updateBalance 0 20000,
         Risk.RiskOp.recordOrder 3]).foldl Risk.applyRiskOp killedStEx)
      3 sigBuyEx [] "BTC" 100).1 = false ∧
    (Risk.validate_signal
      (([Risk.RiskOp.updateBalance 0 20000,
         Risk.RiskOp.recordOrder 3]).foldl Risk.applyRiskOp killedStEx)
      3 sigBuyEx [] "BTC" 100).2.isSome = true ∧
    (∀ (st' : Risk.RiskState) (r : Risk.KillReason),
      (Risk.kill st' r).is_killed = true) :=
  c2_kill_switch_monotone killedStEx rfl
    [Risk.RiskOp.updateBalance 0 20000, Risk.RiskOp.recordOrder 3] 3 sigBuyEx [] "BTC" 100

namespace Risk

theorem kill_risk_limits (st : RiskState) (r : KillReason) :
    (kill st r).risk_limits = st.risk_limits := by
  unfold kill; split <;> rfl

theorem kill_of_killed (st : RiskState) (r : KillReason) (h : st.is_killed = true) :
    kill st r = st := by
  unfold kill; simp [h]

theorem kill_of_not_killed (st : RiskState) (r : KillReason) (h : st.is_killed = false) :
    kill st r = { st with is_killed := true, kill_reason := some r } := by
  unfold kill; simp [h]

theorem ite_kill_risk_limits (c : Prop) [Decidable c] (a : RiskState) (r : KillReason) :
    (if c then kill a r else a).risk_limits = a.risk_limits := by
  split
  · exact kill_risk_limits a r
  · rfl

/-- The three sequential conditional `kill` calls at the end of
`update_balance`: the result is killed iff one of the conditions holds, and
when the first condition holds the first reason wins. -/
theorem killChain (A : RiskState) (hA : A.is_killed = false)
    (c1 c2 c3 : Prop) [Decidable c1] [Decidable c2] [Decidable c3]
    (r1 r2 r3 : KillReason) :
    ((if c3 then
        kill (if c2 then kill (if c1 then kill A r1 else A) r2
          else (if c1 then kill A r1 else A)) r3
      else (if c2 then kill (if c1 then kill A r1 else A) r2
          else (if c1 then kill A r1 else A))).is_killed = true ↔
      (c1 ∨ c2 ∨ c3)) ∧
    (c1 →
      (if c3 then
          kill (if c2 then kill (if c1 then kill A r1 else A) r2
            else (if c1 then kill A r1 else A)) r3
        else (if c2 then kill (if c1 then kill A r1 else A) r2
            else (if c1 then kill A r1 else A))).kill_reason = some r1) := by
  by_cases h1 : c1 <;> by_cases h2 : c2 <;> by_cases h3 : c3 <;>
    simp [h1, h2, h3, kill, hA]

end Risk

/-- C7: `update_balance(new_balance)` trips the kill switch exactly when the
day's loss fraction reaches `max_daily_loss`, or the updated intraday max
drawdown reaches `max_drawdown`, or the new balance falls below
`min_balance` (all relative to the day's stats `ds` in effect after the
date-roll); and when the daily-loss condition holds, the recorded kill
reason is the daily-loss one.  `hpk` keeps the drawdown computation inside
Python's defined domain (no `ZeroDivisionError`). -/
theorem c7_update_balance_kill_characterization
    (st : Risk.RiskState) (today : ℤ) (nb : ℚ) (ds : Risk.DailyStats)
    (hnk : st.is_killed = false)
    (hds : (Risk.reset_daily_stats today st).daily_stats = some ds)
    (hpk : 0 < (if nb > ds.peak_balance then nb else ds.peak_balance)) :
    ((Risk.update_balance today nb st).is_killed = true ↔
      ((if ds.starting_balance > 0
          then (ds.starting_balance - nb) / ds.starting_balance else 0)
          ≥ st.risk_limits.max_daily_loss ∨
       (if ((if nb > ds.peak_balance then nb else ds.peak_balance) - nb) /
              (if nb > ds.peak_balance then nb else ds.peak_balance) > ds.max_drawdown
        then ((if nb > ds.peak_balance then nb else ds.peak_balance) - nb) /
              (if nb > ds.peak_balance then nb else ds.peak_balance)
        else ds.max_drawdown) ≥ st.risk_limits.max_drawdown ∨
       nb < st.risk_limits.min_balance)) ∧
    ((if ds.starting_balance > 0
        then (ds.starting_balance - nb) / ds.starting_balance else 0)
        ≥ st.risk_limits.max_daily_loss →
      (Risk.update_balance today nb st).kill_reason =
        some (.dailyLoss
          (if ds.starting_balance > 0
            then (ds.starting_balance - nb) / ds.starting_balance else 0)
          st.risk_limits.max_daily_loss)) := by
  have hrl := Risk.reset_daily_stats_risk_limits today st
  have hik := Risk.reset_daily_stats_is_killed today st
  have hkr := Risk.reset_daily_stats_kill_reason today st
  unfold Risk.update_balance
  rw [hds]
  dsimp only
  rw [hrl, hik, hkr]
  simp only [Risk.ite_kill_risk_limits]
  apply Risk.killChain
  exact hnk

theorem c7_update_balance_kill_witness :
    (Risk.update_balance 0 9400 (Risk.mkRiskManager 0 10000 {})).is_killed = true ∧
    (Risk.update_balance 0 9400 (Risk.mkRiskManager 0 10000 {})).kill_reason =
      some (.dailyLoss (3/50) (1/20)) := by
  have h := c7_update_balance_kill_characterization (Risk.mkRiskManager 0 10000 {}) 0 9400
    { date := 0, starting_balance := 10000, current_balance := 10000, peak_balance := 10000 }
    rfl rfl (by norm_num)
  have hc1 : (if ((10000:ℚ)) > 0 then (((10000:ℚ)) - 9400) / 10000 else 0) ≥
      (Risk.mkRiskManager 0 10000 {}).risk_limits.max_daily_loss := by
    norm_num [Risk.mkRiskManager, Risk.reset_daily_stats]
  refine ⟨h.1.mpr (Or.inl hc1), ?_⟩
  have h2 := h.2 hc1
  rw [h2]
  norm_num [Risk.mkRiskManager, Risk.reset_daily_stats]

/-- C10: for any signal strength in `[0, 1]` and positive balance, the
fraction computed by `check_position_size` equals
`max_position_size * strength`, which never strictly exceeds
`max_position_size` (the limit being a nonnegative fraction), so the check
returns `True` and the `"Position size exceeds limit"` branch of
`validate_signal` can never be the returned rejection. -/
theorem c10_position_size_check_unreachable
    (st : Risk.RiskState) (signal : RaiAlgo.Signal) (bal price : ℚ) (hour : ℕ)
    (positions : List (String × RaiAlgo.Position)) (symbol : String)
    (h1 : signal.strength ≤ 1)
    (hbal : 0 < bal) (hcb : 0 < st.current_balance)
    (hmps : 0 ≤ st.risk_limits.max_position_size) :
    Risk.position_pct st.risk_limits signal bal
      = st.risk_limits.max_position_size * signal.strength ∧
    Risk.check_position_size st signal bal price = true ∧
    Risk.validate_signal st hour signal positions symbol price
      ≠ (false, some .positionSize) := by
  have hpct : ∀ b : ℚ, 0 < b →
      Risk.position_pct st.risk_limits signal b
        = st.risk_limits.max_position_size * signal.strength := by
    intro b hb
    unfold Risk.position_pct
    rw [if_pos hb]
    field_simp
    ring
  have hle : st.risk_limits.max_position_size * signal.strength
      ≤ st.risk_limits.max_position_size := by
    calc st.risk_limits.max_position_size * signal.strength
        ≤ st.risk_limits.max_position_size * 1 := by
          exact mul_le_mul_of_nonneg_left h1 hmps
      _ = st.risk_limits.max_position_size := mul_one _
  have hchk : ∀ b : ℚ, 0 < b → Risk.check_position_size st signal b price = true := by
    intro b hb
    unfold Risk.check_position_size
    rw [hpct b hb]
    simpa using not_lt.mpr hle
  refine ⟨hpct bal hbal, hchk bal hbal, ?_⟩
  unfold Risk.validate_signal
  by_cases hk : st.is_killed
  · simp [hk]
  · rw [hchk st.current_balance hcb]
    simp only [hk]
    repeat' split
    all_goals simp_all

theorem c10_position_size_check_witness :
    Risk.position_pct (Risk.mkRiskManager 0 10000 {}).risk_limits sigBuyEx 10000
      = (Risk.mkRiskManager 0 10000 {}).risk_limits.max_position_size
        * sigBuyEx.strength ∧
    Risk.check_position_size (Risk.mkRiskManager 0 10000 {}) sigBuyEx 10000 100 = true ∧
    Risk.validate_signal (Risk.mkRiskManager 0 10000 {}) 0 sigBuyEx [] "BTC" 100
      ≠ (false, some .positionSize) :=
  c10_position_size_check_unreachable (Risk.mkRiskManager 0 10000 {}) sigBuyEx
    10000 100 0 [] "BTC"
    (by norm_num [sigBuyEx]) (by norm_num)
    (by norm_num [Risk.mkRiskManager, Risk.reset_daily_stats])
    (by norm_num [Risk.mkRiskManager, Risk.reset_daily_stats])

/-- An open long position worth 45 * 100 = 4500 notional. -/
def posExposedEx : RaiAlgo.Position :=
  { entry_price := 100, size := 45, entry_time := 0 }

/-- C6 counterexample: with balance 10000, default limits
(`max_total_exposure = 0.5`, `max_position_size = 0.1`) and one open
position of notional 4500, a strength-1 BUY would bring the total exposure
including the proposed new position to 5500 > 5000 — yet `validate_signal`
accepts: `check_total_exposure` sums only the positions already open and
never adds the proposed position. -/
theorem c6_exposure_check_excludes_proposed_position :
    (Risk.totalExposure [("BTC", posExposedEx)]
        + (Risk.mkRiskManager 0 10000 {}).current_balance
          * (Risk.mkRiskManager 0 10000 {}).risk_limits.max_position_size
          * sigBuyEx.strength)
      / (Risk.mkRiskManager 0 10000 {}).current_balance
      > (Risk.mkRiskManager 0 10000 {}).risk_limits.max_total_exposure ∧
    Risk.validate_signal (Risk.mkRiskManager 0 10000 {}) 0 sigBuyEx
      [("BTC", posExposedEx)] "BTC" 100 = (true, none) := by
  constructor
  · norm_num [Risk.totalExposure, Risk.exposurePrice, posExposedEx, sigBuyEx,
      RaiAlgo.Position.is_open, Risk.mkRiskManager, Risk.reset_daily_stats]
  · norm_num [Risk.validate_signal, Risk.check_position_size, Risk.position_pct,
      Risk.check_total_exposure, Risk.totalExposure, Risk.exposurePrice,
      Risk.check_order_rate, Risk.mkRiskManager, Risk.reset_daily_stats,
      posExposedEx, sigBuyEx, RaiAlgo.Position.is_open]

/-- C6 (amended): for a BUY/SELL signal, `validate_signal` rejects with the
exposure reason when the notional exposure of the positions already open —
the proposed position is not counted — strictly exceeds
`max_total_exposure` of the current balance (given the signal passes the
earlier kill/size checks). -/
theorem c6_rejects_when_existing_exposure_exceeds
    (st : Risk.RiskState) (signal : RaiAlgo.Signal) (hour : ℕ)
    (positions : List (String × RaiAlgo.Position)) (symbol : String) (price : ℚ)
    (hk : st.is_killed = false)
    (hbs : signal.signal_type = .buy ∨ signal.signal_type = .sell)
    (h1 : signal.strength ≤ 1)
    (hmps : 0 ≤ st.risk_limits.max_position_size)
    (hbal : 0 < st.current_balance)
    (hexp : Risk.totalExposure positions / st.current_balance
      > st.risk_limits.max_total_exposure) :
    Risk.validate_signal st hour signal positions symbol price
      = (false, some .totalExposure) := by
  have hpct : Risk.position_pct st.risk_limits signal st.current_balance
      = st.risk_limits.max_position_size * signal.strength := by
    unfold Risk.position_pct
    rw [if_pos hbal]
    field_simp
    ring
  have hchk : Risk.check_position_size st signal st.current_balance price = true := by
    unfold Risk.check_position_size
    rw [hpct]
    have hle : st.risk_limits.max_position_size * signal.strength
        ≤ st.risk_limits.max_position_size := by
      calc st.risk_limits.max_position_size * signal.strength
          ≤ st.risk_limits.max_position_size * 1 := mul_le_mul_of_nonneg_left h1 hmps
        _ = st.risk_limits.max_position_size := mul_one _
    simpa using not_lt.mpr hle
  have hexp' : Risk.check_total_exposure st positions st.current_balance = false := by
    unfold Risk.check_total_exposure
    rw [if_pos hbal]
    simpa using hexp
  unfold Risk.validate_signal
  rw [hchk]
  simp [hk, hexp', hbs]

theorem c6_rejects_when_existing_exposure_exceeds_witness :
    Risk.validate_signal (Risk.mkRiskManager 0 10000 {}) 0 sigBuyEx
      [("BTC", { entry_price := 100, size := 51, entry_time := 0 })] "BTC" 100
      = (false, some .totalExposure) :=
  c6_rejects_when_existing_exposure_exceeds (Risk.mkRiskManager 0 10000 {}) sigBuyEx 0
    [("BTC", { entry_price := 100, size := 51, entry_time := 0 })] "BTC" 100
    rfl (Or.inl rfl)
    (by norm_num [sigBuyEx])
    (by norm_num [Risk.mkRiskManager, Risk.reset_daily_stats])
    (by norm_num [Risk.mkRiskManager, Risk.reset_daily_stats])
    (by norm_num [Risk.totalExposure, Risk.exposurePrice,
      RaiAlgo.Position.is_open, Risk.mkRiskManager, Risk.reset_daily_stats])

namespace RaiAlgo

/-- Unfolding of the truthiness guard. -/
theorem optTrig_eq_true_iff (o : Option ℚ) (f : ℚ → Bool) :
    optTrig o f = true ↔ ∃ v, o = some v ∧ v ≠ 0 ∧ f v = true := by
  cases o with
  | none => simp [optTrig]
  | some v =>
      simp only [optTrig]
      split_ifs with h <;> simp_all

end RaiAlgo

/-- A demo long position with stop-loss 95. -/
def demoPosEx : DemoTrader.DemoPosition :=
  { symbol := "BTC", side := "long", entry_price := 100, entry_time := 0, size := 1,
    stop_loss := some 95 }

/-- The same position in the backtest domain model. -/
def posLongSLEx : RaiAlgo.Position :=
  { entry_price := 100, size := 1, entry_time := 0, stop_loss := some 95,
    signal_type := .buy }

/-- A bar whose low (90) dips through the stop (95) but whose close (100)
does not. -/
def barDipEx : RaiAlgo.MarketData :=
  { timestamp := 1, openP := 100, high := 101, low := 90, close := 100, volume := 1 }

/-- C8 counterexample: on a tick whose low pierces a long stop-loss but
whose close does not, the Backtest Engine's high/low rule triggers the exit
while `DemoTrader._check_exit_conditions` (which compares the tick's close
`price` only) keeps the position open — the demo loop does not use the same
high/low rule. -/
theorem c8_demo_exit_ignores_bar_low :
    Backtest.check_exit_conditions posLongSLEx barDipEx = true ∧
    DemoTrader.check_exit_decision demoPosEx barDipEx = none := by
  constructor
  · norm_num [Backtest.check_exit_conditions, posLongSLEx, barDipEx,
      RaiAlgo.optTrig]
  · norm_num [DemoTrader.check_exit_decision, demoPosEx, barDipEx,
      RaiAlgo.optTrig, RaiAlgo.MarketData.price,
      show ("long" : String) ≠ "short" from by decide]

namespace DemoTrader

theorem demo_sl_trigger_iff (pos : DemoPosition) (bar : RaiAlgo.MarketData)
    (hside : pos.side = "long" ∨ pos.side = "short") :
    (RaiAlgo.optTrig pos.stop_loss (fun sl =>
        (pos.side = "long" && bar.price ≤ sl) ||
        (pos.side = "short" && bar.price ≥ sl)) = true) ↔
    (∃ sl, pos.stop_loss = some sl ∧ sl ≠ 0 ∧
      (if pos.side = "long" then bar.price ≤ sl else bar.price ≥ sl)) := by
  have hne : ("long" : String) ≠ "short" := by decide
  have hne' : ("short" : String) ≠ "long" := by decide
  rw [RaiAlgo.optTrig_eq_true_iff]
  rcases hside with h | h <;> simp [h, hne, hne']

theorem demo_tp_trigger_iff (pos : DemoPosition) (bar : RaiAlgo.MarketData)
    (hside : pos.side = "long" ∨ pos.side = "short") :
    (RaiAlgo.optTrig pos.take_profit (fun tp =>
        (pos.side = "long" && bar.price ≥ tp) ||
        (pos.side = "short" && bar.price ≤ tp)) = true) ↔
    (∃ tp, pos.take_profit = some tp ∧ tp ≠ 0 ∧
      (if pos.side = "long" then bar.price ≥ tp else bar.price ≤ tp)) := by
  have hne : ("long" : String) ≠ "short" := by decide
  have hne' : ("short" : String) ≠ "long" := by decide
  rw [RaiAlgo.optTrig_eq_true_iff]
  rcases hside with h | h <;> simp [h, hne, hne']

theorem lookup_filter_ne (l : List (String × DemoPosition)) (s : String) :
    (l.filter (fun kv => kv.1 ≠ s)).lookup s = none := by
  induction l with
  | nil => rfl
  | cons kv t ih =>
      by_cases h : kv.1 = s
      · simpa [List.filter, h] using ih
      · have hb : (s == kv.1) = false := by
          simp [Ne.symm h]
        have hd : decide (kv.1 ≠ s) = true := by simpa using h
        simp only [List.filter, hd]
        simp only [List.lookup, hb]
        simpa using ih

end DemoTrader

/-- C8 (amended): in the demo execution loop the stop-loss/take-profit exit
test compares the fresh tick's `price` (its close) against the levels — a
long stop triggers when `price ≤ stop`, a long target when
`price ≥ target`, and short is mirrored (not the backtest's high/low rule);
and a triggered exit is booked by `_close_position` directly: the trader's
risk-manager state is untouched and the position is removed no matter what
that state says. -/
theorem c8_demo_exit_price_rule (pos : DemoTrader.DemoPosition)
    (bar : RaiAlgo.MarketData)
    (hside : pos.side = "long" ∨ pos.side = "short") :
    ((DemoTrader.check_exit_decision pos bar).isSome = true ↔
      ((∃ sl, pos.stop_loss = some sl ∧ sl ≠ 0 ∧
        (if pos.side = "long" then bar.price ≤ sl else bar.price ≥ sl)) ∨
       (∃ tp, pos.take_profit = some tp ∧ tp ≠ 0 ∧
        (if pos.side = "long" then bar.price ≥ tp else bar.price ≤ tp)))) ∧
    (∀ (cfg : DemoTrader.DemoCfg) (now : ℤ) (symbol reason : String)
       (books : DemoTrader.DemoBooks) (p : DemoTrader.DemoPosition),
      (DemoTrader.close_position cfg now symbol reason books).risk = books.risk ∧
      (books.positions.lookup symbol = some p →
       books.market_data_history ≠ [] →
       (DemoTrader.close_position cfg now symbol reason books).positions.lookup
          symbol = none)) := by
  constructor
  · have hsl := DemoTrader.demo_sl_trigger_iff pos bar hside
    have htp := DemoTrader.demo_tp_trigger_iff pos bar hside
    have hchain : ∀ {α : Type} (c1 c2 : Prop) [Decidable c1] [Decidable c2] (x y : α),
        (if c1 then some x else if c2 then some y else none).isSome = true
          ↔ (c1 ∨ c2) := by
      intro α c1 c2 _ _ x y
      split_ifs <;> simp [*]
    unfold DemoTrader.check_exit_decision
    rw [hchain]
    rw [hsl, htp]
  · intro cfg now symbol reason books p
    constructor
    · unfold DemoTrader.close_position
      split <;> rfl
    · intro hlook hhist
      have hmd : ∃ md, books.market_data_history.getLast? = some md := by
        cases hg : books.market_data_history.getLast? with
        | none => exact absurd (List.getLast?_eq_none_iff.mp hg) hhist
        | some md => exact ⟨md, rfl⟩
      obtain ⟨md, hmd⟩ := hmd
      unfold DemoTrader.close_position
      rw [hlook, hmd]
      exact DemoTrader.lookup_filter_ne books.positions symbol

theorem c8_demo_exit_price_rule_witness :
    ((DemoTrader.check_exit_decision demoPosEx barDipEx).isSome = true ↔
      ((∃ sl, demoPosEx.stop_loss = some sl ∧ sl ≠ 0 ∧
        (if demoPosEx.side = "long" then barDipEx.price ≤ sl
         else barDipEx.price ≥ sl)) ∨
       (∃ tp, demoPosEx.take_profit = some tp ∧ tp ≠ 0 ∧
        (if demoPosEx.side = "long" then barDipEx.price ≥ tp
         else barDipEx.price ≤ tp)))) ∧
    (∀ (cfg : DemoTrader.DemoCfg) (now : ℤ) (symbol reason : String)
       (books : DemoTrader.DemoBooks) (p : DemoTrader.DemoPosition),
      (DemoTrader.close_position cfg now symbol reason books).risk = books.risk ∧
      (books.positions.lookup symbol = some p →
       books.market_data_history ≠ [] →
       (DemoTrader.close_position cfg now symbol reason books).positions.lookup
          symbol = none)) :=
  c8_demo_exit_price_rule demoPosEx barDipEx (Or.inl rfl)

namespace Backtest

theorem insertByTS_ne_nil (x : RaiAlgo.MarketData) (l : List RaiAlgo.MarketData) :
    insertByTS x l ≠ [] := by
  cases l with
  | nil => simp [insertByTS]
  | cons y ys =>
      unfold insertByTS
      split <;> simp

theorem sortMD_eq_nil_iff (data : List RaiAlgo.MarketData) :
    sortMD data = [] ↔ data = [] := by
  cases data with
  | nil => simp [sortMD]
  | cons x xs =>
      simp only [sortMD, List.foldr]
      constructor
      · intro h
        exact absurd h (insertByTS_ne_nil x (xs.foldr insertByTS []))
      · intro h
        exact absurd h (by simp)

theorem finishRun_ne_emptyData (cfg : EngineCfg) (final_data : RaiAlgo.MarketData)
    (r : Except String (LoopState σ)) :
    finishRun cfg final_data r ≠ .error .emptyData := by
  cases r <;> simp [finishRun]

end Backtest

/-- C9: `run` fails with the empty-market-data `ValueError` exactly when the
supplied data sequence is empty; on any non-empty sequence the replay
proceeds (the result is an ordinary `BacktestResult`, or a propagated
strategy exception — never the empty-input error). -/
theorem c9_empty_data_error_iff {σ : Type} (cfg : Backtest.EngineCfg)
    (strat : Backtest.Strategy σ) (data : List RaiAlgo.MarketData) :
    Backtest.run cfg strat data = .error .emptyData ↔ data = [] := by
  unfold Backtest.run
  by_cases h : data = []
  · simp [h]
  · rw [if_neg h]
    cases hg : (Backtest.sortMD data).getLast? with
    | none =>
        exact absurd ((Backtest.sortMD_eq_nil_iff data).mp
          (List.getLast?_eq_none_iff.mp hg)) h
    | some fd =>
        constructor
        · intro hcontra
          exact absurd hcontra (Backtest.finishRun_ne_emptyData cfg fd _)
        · intro hcontra
          exact absurd hcontra h

/-- A one-bar data set. -/
def bar0Ex : RaiAlgo.MarketData :=
  { timestamp := 0, openP := 100, high := 101, low := 99, close := 100, volume := 1 }

/-- A strategy whose `generate_signal` always raises. -/
def raisingStrategyEx : Backtest.Strategy Unit :=
  { init := ()
    required_history_length := 0
    generate_signal := fun _ _ _ _ => .error "boom"
    update_state := fun s _ _ => s }

/-- C1 counterexample: `rai_algo/backtest.py`'s `BacktestEngine.run` has no
`try` around `generate_signal` — a strategy exception at the very first bar
escapes `run` (modelled as the `strategyError` outcome), so `run` does
propagate strategy exceptions instead of treating the bar as HOLD. -/
theorem c1_backtest_run_propagates_strategy_error :
    Backtest.run {} raisingStrategyEx [bar0Ex]
      = .error (.strategyError "boom") := by
  rfl

namespace BacktestCore

theorem coreStep_errAsFlat (cfg : CoreCfg) (strat : CoreStrategy σ)
    (data : List Row) (i : ℕ) (row : Row) (st : CoreState σ) :
    coreStep cfg (errAsFlat strat) data i row st = coreStep cfg strat data i row st := by
  simp only [coreStep, errAsFlat]
  cases hp : strat (data.take (i + 1)) i st.sstate with
  | mk res s' =>
      cases res <;> simp [resolveTarget]

theorem coreRunBarsAux_errAsFlat (cfg : CoreCfg) (strat : CoreStrategy σ)
    (data : List Row) :
    ∀ (rest : List Row) (i : ℕ) (st : CoreState σ),
      coreRunBarsAux cfg (errAsFlat strat) data i rest st
        = coreRunBarsAux cfg strat data i rest st := by
  intro rest
  induction rest with
  | nil => intro i st; rfl
  | cons row t ih =>
      intro i st
      unfold coreRunBarsAux
      rw [coreStep_errAsFlat]
      exact ih (i + 1) _

end BacktestCore

/-- C1 (amended): the per-bar catch-and-HOLD failure mode belongs to the
generic engine in `backtest/core.py`: a strategy-callback exception at any
bar is caught and treated as target `0.0` (flat/HOLD) and the replay
continues — replacing every raising call by one returning `0.0` yields the
identical run result, and `coreRun` is a total function (it never
propagates a callback exception).  `rai_algo/backtest.py`'s
`BacktestEngine.run`, in contrast, propagates `generate_signal` exceptions
(see the counterexample). -/
theorem c1_core_engine_treats_strategy_error_as_flat {σ : Type}
    (cfg : BacktestCore.CoreCfg) (strat : BacktestCore.CoreStrategy σ)
    (data : List BacktestCore.Row) (s0 : σ) :
    BacktestCore.coreRun cfg (BacktestCore.errAsFlat strat) data s0
      = BacktestCore.coreRun cfg strat data s0 := by
  unfold BacktestCore.coreRun BacktestCore.coreRunBars
  simp only [BacktestCore.coreRunBarsAux_errAsFlat]

namespace Backtest

/-- The stop/target trigger rule of `_check_exit_conditions`, spelled out:
long positions exit when `low ≤ stop` or `high ≥ target`, short mirrored
(a zero level counts as unset, per Python truthiness). -/
theorem check_exit_conditions_iff (pos : RaiAlgo.Position) (bar : RaiAlgo.MarketData) :
    check_exit_conditions pos bar = true ↔
      (if pos.signal_type = .buy then
        ((∃ sl, pos.stop_loss = some sl ∧ sl ≠ 0 ∧ bar.low ≤ sl) ∨
         (∃ tp, pos.take_profit = some tp ∧ tp ≠ 0 ∧ bar.high ≥ tp))
      else
        ((∃ sl, pos.stop_loss = some sl ∧ sl ≠ 0 ∧ bar.high ≥ sl) ∨
         (∃ tp, pos.take_profit = some tp ∧ tp ≠ 0 ∧ bar.low ≤ tp))) := by
  unfold check_exit_conditions
  split_ifs with h <;> simp [RaiAlgo.optTrig_eq_true_iff]

end Backtest

/-- C3: within one bar of `run`, an open position whose stop-loss/take-profit
triggers (against the bar's high/low, long: `low ≤ stop` / `high ≥ target`,
short mirrored) is closed — appended to the trade list with the
slippage-adjusted exit — before the strategy is consulted: `generate_signal`
receives `None` as the current position, so a same-bar re-entry can only
come from the new signal it returns. -/
theorem c3_exit_before_entry {σ : Type} (cfg : Backtest.EngineCfg)
    (strat : Backtest.Strategy σ) (st : Backtest.LoopState σ)
    (hist : List RaiAlgo.MarketData) (bar : RaiAlgo.MarketData)
    (pos : RaiAlgo.Position)
    (hcp : st.current_position = some pos)
    (hopen : pos.is_open = true)
    (htrig : Backtest.check_exit_conditions pos bar = true) :
    (Backtest.check_exit_conditions pos bar = true ↔
      (if pos.signal_type = .buy then
        ((∃ sl, pos.stop_loss = some sl ∧ sl ≠ 0 ∧ bar.low ≤ sl) ∨
         (∃ tp, pos.take_profit = some tp ∧ tp ≠ 0 ∧ bar.high ≥ tp))
      else
        ((∃ sl, pos.stop_loss = some sl ∧ sl ≠ 0 ∧ bar.high ≥ sl) ∨
         (∃ tp, pos.take_profit = some tp ∧ tp ≠ 0 ∧ bar.low ≤ tp)))) ∧
    (Backtest.closeIfExit cfg st bar).current_position = none ∧
    (Backtest.closeIfExit cfg st bar).positions = st.positions ++
      [pos.update_exit bar.timestamp
        (Backtest.apply_slippage cfg bar.price pos.signal_type false)] ∧
    Backtest.stepBar cfg strat st hist bar =
      (strat.generate_signal st.sstate bar hist none).map
        (fun signal =>
          { Backtest.processSignal cfg strat
              (Backtest.closeIfExit cfg st bar) bar signal with
            sstate := strat.update_state
              (Backtest.processSignal cfg strat
                (Backtest.closeIfExit cfg st bar) bar signal).sstate
              bar signal }) := by
  have hce : Backtest.closeIfExit cfg st bar
      = Backtest.closePosition cfg st pos bar.timestamp bar.price := by
    unfold Backtest.closeIfExit
    rw [hcp]
    simp [hopen, htrig]
  have hcpnone : (Backtest.closeIfExit cfg st bar).current_position = none := by
    rw [hce]; rfl
  have hsst : (Backtest.closeIfExit cfg st bar).sstate = st.sstate := by
    rw [hce]; rfl
  refine ⟨Backtest.check_exit_conditions_iff pos bar, hcpnone, ?_, ?_⟩
  · rw [hce]
    rfl
  · unfold Backtest.stepBar
    rw [hsst, hcpnone]

/-- A strategy that always holds. -/
def holdStrategyEx : Backtest.Strategy Unit :=
  { init := ()
    required_history_length := 0
    generate_signal := fun _ bar _ _ =>
      .ok { signal_type := .hold, strength := 0, price := bar.close,
            timestamp := bar.timestamp }
    update_state := fun s _ _ => s }

/-- A loop state holding the open long position with stop 95. -/
def stOpenEx : Backtest.LoopState Unit :=
  { capital := 10000, positions := [], current_position := some posLongSLEx,
    equity_curve := [10000], drawdown_curve := [0], peak_equity := 10000,
    sstate := () }

theorem c3_exit_before_entry_witness :
    (Backtest.check_exit_conditions posLongSLEx barDipEx = true ↔
      (if posLongSLEx.signal_type = .buy then
        ((∃ sl, posLongSLEx.stop_loss = some sl ∧ sl ≠ 0 ∧ barDipEx.low ≤ sl) ∨
         (∃ tp, posLongSLEx.take_profit = some tp ∧ tp ≠ 0 ∧ barDipEx.high ≥ tp))
      else
        ((∃ sl, posLongSLEx.stop_loss = some sl ∧ sl ≠ 0 ∧ barDipEx.high ≥ sl) ∨
         (∃ tp, posLongSLEx.take_profit = some tp ∧ tp ≠ 0 ∧ barDipEx.low ≤ tp)))) ∧
    (Backtest.closeIfExit {} stOpenEx barDipEx).current_position = none ∧
    (Backtest.closeIfExit {} stOpenEx barDipEx).positions = stOpenEx.positions ++
      [posLongSLEx.update_exit barDipEx.timestamp
        (Backtest.apply_slippage {} barDipEx.price posLongSLEx.signal_type false)] ∧
    Backtest.stepBar {} holdStrategyEx stOpenEx [] barDipEx =
      (holdStrategyEx.generate_signal stOpenEx.sstate barDipEx [] none).map
        (fun signal =>
          { Backtest.processSignal {} holdStrategyEx
              (Backtest.closeIfExit {} stOpenEx barDipEx) barDipEx signal with
            sstate := holdStrategyEx.update_state
              (Backtest.processSignal {} holdStrategyEx
                (Backtest.closeIfExit {} stOpenEx barDipEx) barDipEx signal).sstate
              barDipEx signal }) :=
  c3_exit_before_entry {} holdStrategyEx stOpenEx [] barDipEx posLongSLEx
    rfl rfl rfl

namespace Backtest

/-- Every position in the recorded trade list is closed. -/
def ClosedInv (st : LoopState σ) : Prop :=
  ∀ p ∈ st.positions, p.exit_time.isSome = true

theorem closePosition_inv {st : LoopState σ} (h : ClosedInv st)
    (cfg : EngineCfg) (pos : RaiAlgo.Position) (ts : ℤ) (price : ℚ) :
    ClosedInv (closePosition cfg st pos ts price) := by
  intro p hp
  unfold closePosition at hp
  simp only at hp
  rcases List.mem_append.mp hp with hold | hnew
  · exact h p hold
  · rw [List.mem_singleton.mp hnew]
    rfl

theorem closeIfExit_inv {st : LoopState σ} (h : ClosedInv st)
    (cfg : EngineCfg) (bar : RaiAlgo.MarketData) :
    ClosedInv (closeIfExit cfg st bar) := by
  unfold closeIfExit
  split
  · split
    · exact closePosition_inv h cfg _ _ _
    · exact h
  · exact h

theorem processSignal_inv {st : LoopState σ} (h : ClosedInv st)
    (cfg : EngineCfg) (strat : Strategy σ) (bar : RaiAlgo.MarketData)
    (signal : RaiAlgo.Signal) :
    ClosedInv (processSignal cfg strat st bar signal) := by
  unfold processSignal
  split
  · intro p hp
    exact h p hp
  · split
    · split
      · exact closePosition_inv h cfg _ _ _
      · exact h
    · exact h

theorem stepBar_inv {st st' : LoopState σ} (cfg : EngineCfg) (strat : Strategy σ)
    (hist : List RaiAlgo.MarketData) (bar : RaiAlgo.MarketData)
    (hstep : stepBar cfg strat st hist bar = .ok st') (h : ClosedInv st) :
    ClosedInv st' := by
  unfold stepBar at hstep
  cases hg : strat.generate_signal (closeIfExit cfg st bar).sstate bar hist
      (closeIfExit cfg st bar).current_position with
  | error e => rw [hg] at hstep; exact absurd hstep (by simp [Except.map])
  | ok signal =>
      rw [hg] at hstep
      simp only [Except.map] at hstep
      have := Except.ok.inj hstep
      rw [← this]
      intro p hp
      exact processSignal_inv (closeIfExit_inv h cfg bar) cfg strat bar signal p hp

theorem runBarsAux_inv (cfg : EngineCfg) (strat : Strategy σ)
    (data : List RaiAlgo.MarketData) :
    ∀ (rest : List RaiAlgo.MarketData) (i : ℕ) (st st' : LoopState σ),
      runBarsAux cfg strat data i rest st = .ok st' → ClosedInv st → ClosedInv st' := by
  intro rest
  induction rest with
  | nil =>
      intro i st st' hrun h
      unfold runBarsAux at hrun
      rw [← Except.ok.inj hrun]
      exact h
  | cons bar t ih =>
      intro i st st' hrun h
      unfold runBarsAux at hrun
      cases hs : stepBar cfg strat st
          (historySlice data strat.required_history_length i) bar with
      | error e => rw [hs] at hrun; exact absurd hrun (by simp)
      | ok stm =>
          rw [hs] at hrun
          exact ih (i + 1) stm st' hrun (stepBar_inv cfg strat _ bar hs h)

theorem forceClose_inv {st : LoopState σ} (h : ClosedInv st)
    (cfg : EngineCfg) (fd : RaiAlgo.MarketData) :
    ClosedInv (forceClose cfg fd st) := by
  unfold forceClose
  split
  · split
    · exact closePosition_inv h cfg _ _ _
    · exact h
  · exact h

theorem calculate_metrics_trades (cfg : EngineCfg) (ps : List RaiAlgo.Position)
    (eq dd : List ℚ) : (calculate_metrics cfg ps eq dd).trades = ps := by
  unfold calculate_metrics
  split <;> rfl

/-- Dissection of a successful `run`: the sorted data has a last bar, the
bar loop succeeded, and the result is the metrics of the force-closed final
state. -/
theorem run_ok_elim {σ : Type} (cfg : EngineCfg) (strat : Strategy σ)
    (data : List RaiAlgo.MarketData) (res : RaiAlgo.BacktestResult)
    (h : run cfg strat data = .ok res) :
    ∃ (fd : RaiAlgo.MarketData) (st : LoopState σ),
      (sortMD data).getLast? = some fd ∧
      runBars cfg strat (sortMD data) (initState cfg strat) = .ok st ∧
      res = calculate_metrics cfg (forceClose cfg fd st).positions
        (forceClose cfg fd st).equity_curve (forceClose cfg fd st).drawdown_curve := by
  unfold run at h
  by_cases hd : data = []
  · rw [if_pos hd] at h
    exact absurd h (by simp)
  · rw [if_neg hd] at h
    cases hg : (sortMD data).getLast? with
    | none => rw [hg] at h; exact absurd h (by simp)
    | some fd =>
        rw [hg] at h
        unfold finishRun at h
        cases hr : runBars cfg strat (sortMD data) (initState cfg strat) with
        | error msg => rw [hr] at h; exact absurd h (by simp)
        | ok st =>
            rw [hr] at h
            simp only at h
            exact ⟨fd, st, rfl, rfl, (Except.ok.inj h).symm⟩

end Backtest

/-- C4: every position in the trade list of a completed `run` is closed
(`exit_time` set); and the post-loop force-close books a still-open
position at the final bar's (slippage-adjusted) close with the commission
taken out of the realised PnL. -/
theorem c4_all_trades_closed {σ : Type} (cfg : Backtest.EngineCfg)
    (strat : Backtest.Strategy σ) (data : List RaiAlgo.MarketData)
    (res : RaiAlgo.BacktestResult)
    (h : Backtest.run cfg strat data = .ok res) :
    (∀ p ∈ res.trades, p.exit_time.isSome = true) ∧
    (∀ (st : Backtest.LoopState σ) (pos : RaiAlgo.Position)
       (fd : RaiAlgo.MarketData),
      st.current_position = some pos → pos.is_open = true →
      (Backtest.forceClose cfg fd st).positions = st.positions ++
        [pos.update_exit fd.timestamp
          (Backtest.apply_slippage cfg fd.price pos.signal_type false)] ∧
      (Backtest.forceClose cfg fd st).capital = st.capital +
        (Backtest.calculate_pnl pos
            (Backtest.apply_slippage cfg fd.price pos.signal_type false)
          - pos.size
            * Backtest.apply_slippage cfg fd.price pos.signal_type false
            * cfg.commission)) := by
  obtain ⟨fd, st, hg, hr, hres⟩ := Backtest.run_ok_elim cfg strat data res h
  constructor
  · rw [hres, Backtest.calculate_metrics_trades]
    apply Backtest.forceClose_inv _ cfg fd
    unfold Backtest.runBars at hr
    apply Backtest.runBarsAux_inv cfg strat _ _ 0 _ st hr
    intro p hp
    simp [Backtest.initState] at hp
  · intro st2 pos fd2 hcp hopen
    unfold Backtest.forceClose
    rw [hcp]
    simp only [hopen, if_true]
    exact ⟨rfl, rfl⟩

/-- Engine with zero costs, for concrete replays. -/
def cfgZeroEx : Backtest.EngineCfg :=
  { initial_capital := 100, commission := 0, slippage := 0, position_size_pct := 1 }

/-- A strategy that buys when flat and holds otherwise. -/
def buyStrategyEx : Backtest.Strategy Unit :=
  { init := ()
    required_history_length := 0
    generate_signal := fun _ bar _ cur =>
      .ok { signal_type := if cur.isSome then .hold else .buy, strength := 1,
            price := bar.close, timestamp := bar.timestamp }
    update_state := fun s _ _ => s }

/-- A later bar with a lower close (the buy-and-hold replay ends at a loss). -/
def bar1Ex : RaiAlgo.MarketData :=
  { timestamp := 1, openP := 95, high := 96, low := 89, close := 90, volume := 1 }

def fallbackResultEx : RaiAlgo.BacktestResult :=
  { total_trades := 0, winning_trades := 0, losing_trades := 0, win_rate := 0,
    total_return := 0, total_return_pct := 0, max_drawdown := 0,
    max_drawdown_pct := 0, avg_win := 0, avg_loss := 0, profit_factor := .val 0,
    avg_trade_duration := 0, trades := [], equity_curve := [],
    drawdown_curve := [] }

/-- The result of a concrete two-bar replay (buy at 100, force-closed at 90). -/
def runResEx : RaiAlgo.BacktestResult :=
  match Backtest.run cfgZeroEx buyStrategyEx [bar0Ex, bar1Ex] with
  | .ok r => r
  | .error _ => fallbackResultEx

theorem c4_all_trades_closed_witness :
    Backtest.run cfgZeroEx buyStrategyEx [bar0Ex, bar1Ex] = .ok runResEx ∧
    ((∀ p ∈ runResEx.trades, p.exit_time.isSome = true) ∧
     (∀ (st : Backtest.LoopState Unit) (pos : RaiAlgo.Position)
        (fd : RaiAlgo.MarketData),
       st.current_position = some pos → pos.is_open = true →
       (Backtest.forceClose cfgZeroEx fd st).positions = st.positions ++
         [pos.update_exit fd.timestamp
           (Backtest.apply_slippage cfgZeroEx fd.price pos.signal_type false)] ∧
       (Backtest.forceClose cfgZeroEx fd st).capital = st.capital +
         (Backtest.calculate_pnl pos
             (Backtest.apply_slippage cfgZeroEx fd.price pos.signal_type false)
           - pos.size
             * Backtest.apply_slippage cfgZeroEx fd.price pos.signal_type false
             * cfgZeroEx.commission))) :=
  ⟨rfl, c4_all_trades_closed cfgZeroEx buyStrategyEx [bar0Ex, bar1Ex] runResEx rfl⟩

namespace Backtest

theorem calculate_metrics_profit_factor_nil (cfg : EngineCfg) (eq dd : List ℚ) :
    (calculate_metrics cfg [] eq dd).profit_factor = .val 0 := rfl

theorem calculate_metrics_profit_factor (cfg : EngineCfg)
    (ps : List RaiAlgo.Position) (eq dd : List ℚ) (hne : ps ≠ []) :
    (calculate_metrics cfg ps eq dd).profit_factor =
      (if (if ps.filter isLosing ≠ [] then |pnlSum (ps.filter isLosing)| else 0) > 0
       then .val ((if ps.filter isWinning ≠ [] then pnlSum (ps.filter isWinning) else 0)
          / (if ps.filter isLosing ≠ [] then |pnlSum (ps.filter isLosing)| else 0))
       else if (if ps.filter isWinning ≠ [] then pnlSum (ps.filter isWinning) else 0) > 0
       then .posInf else .val 0) := by
  unfold calculate_metrics
  rw [if_neg hne]

theorem sum_neg_of_all_neg (l : List ℚ) (h : ∀ x ∈ l, x < 0) (hne : l ≠ []) :
    l.sum < 0 := by
  induction l with
  | nil => simp at hne
  | cons x t ih =>
      simp only [List.sum_cons]
      rcases eq_or_ne t [] with rfl | hte
      · simpa using h x (by simp)
      · have ht := ih (fun y hy => h y (by simp [hy])) hte
        have hx := h x (by simp)
        linarith

theorem pnlSum_winning_pos (ps : List RaiAlgo.Position)
    (hne : ps.filter isWinning ≠ []) : 0 < pnlSum (ps.filter isWinning) := by
  unfold pnlSum
  apply List.sum_pos
  · intro x hx
    obtain ⟨p, hp, hx⟩ := List.mem_map.mp hx
    have hw : isWinning p = true := (List.mem_filter.mp hp).2
    unfold isWinning at hw
    cases hpn : p.pnl with
    | none => rw [hpn] at hw; exact absurd hw (by simp)
    | some v =>
        rw [hpn] at hw
        rw [← hx, hpn]
        simpa using hw
  · simpa using hne

theorem pnlSum_losing_neg (ps : List RaiAlgo.Position)
    (hne : ps.filter isLosing ≠ []) : pnlSum (ps.filter isLosing) < 0 := by
  unfold pnlSum
  apply sum_neg_of_all_neg
  · intro x hx
    obtain ⟨p, hp, hx⟩ := List.mem_map.mp hx
    have hw : isLosing p = true := (List.mem_filter.mp hp).2
    unfold isLosing at hw
    cases hpn : p.pnl with
    | none => rw [hpn] at hw; exact absurd hw (by simp)
    | some v =>
        rw [hpn] at hw
        rw [← hx, hpn]
        simpa using hw
  · simpa using hne

theorem filter_ne_nil_of_ne {α : Type} (f : α → Bool) (l : List α)
    (h : l.filter f ≠ []) : l ≠ [] := by
  intro hl
  rw [hl] at h
  exact h rfl

end Backtest

/-- C5: in the result of any completed `run`, the profit factor is the sum
of winning-trade PnLs over the absolute sum of losing-trade PnLs (winning:
`pnl > 0`; losing: `pnl < 0` — a zero-PnL trade is counted in neither, per
the Python truthiness filters): `0` when no trades were executed, the
quotient when there is at least one losing trade, and `+inf` when there is
at least one winning trade and no losing ones. -/
theorem c5_profit_factor_spec {σ : Type} (cfg : Backtest.EngineCfg)
    (strat : Backtest.Strategy σ) (data : List RaiAlgo.MarketData)
    (res : RaiAlgo.BacktestResult)
    (h : Backtest.run cfg strat data = .ok res) :
    (res.trades = [] → res.profit_factor = .val 0) ∧
    (res.trades.filter Backtest.isLosing ≠ [] →
      res.profit_factor = .val
        (Backtest.pnlSum (res.trades.filter Backtest.isWinning)
          / |Backtest.pnlSum (res.trades.filter Backtest.isLosing)|)) ∧
    (res.trades.filter Backtest.isWinning ≠ [] →
      res.trades.filter Backtest.isLosing = [] →
      res.profit_factor = .posInf) := by
  obtain ⟨fd, st, hg, hr, hres⟩ := Backtest.run_ok_elim cfg strat data res h
  have htr : res.trades = (Backtest.forceClose cfg fd st).positions := by
    rw [hres, Backtest.calculate_metrics_trades]
  refine ⟨?_, ?_, ?_⟩
  · intro hnil
    rw [htr] at hnil
    rw [hres, hnil]
    exact Backtest.calculate_metrics_profit_factor_nil cfg _ _
  · intro hlne
    rw [htr] at hlne ⊢
    rw [hres, Backtest.calculate_metrics_profit_factor cfg _ _ _
      (Backtest.filter_ne_nil_of_ne _ _ hlne)]
    have hL : 0 < |Backtest.pnlSum
        ((Backtest.forceClose cfg fd st).positions.filter Backtest.isLosing)| :=
      abs_pos.mpr (ne_of_lt (Backtest.pnlSum_losing_neg _ hlne))
    rw [if_pos hlne, if_pos hL]
    by_cases hw : (Backtest.forceClose cfg fd st).positions.filter
        Backtest.isWinning = []
    · rw [if_neg (by simpa using hw), hw]
      simp [Backtest.pnlSum]
    · rw [if_pos hw]
  · intro hwne hlnil
    rw [htr] at hwne hlnil
    rw [hres, Backtest.calculate_metrics_profit_factor cfg _ _ _
      (Backtest.filter_ne_nil_of_ne _ _ hwne)]
    rw [hlnil]
    simp only [ne_eq, not_true_eq_false, if_false]
    rw [if_neg (by norm_num), if_pos hwne]
    rw [if_pos (Backtest.pnlSum_winning_pos _ hwne)]

theorem c5_profit_factor_spec_witness :
    Backtest.run cfgZeroEx buyStrategyEx [bar0Ex, bar1Ex] = .ok runResEx ∧
    ((runResEx.trades = [] → runResEx.profit_factor = .val 0) ∧
     (runResEx.trades.filter Backtest.isLosing ≠ [] →
       runResEx.profit_factor = .val
         (Backtest.pnlSum (runResEx.trades.filter Backtest.isWinning)
           / |Backtest.pnlSum (runResEx.trades.filter Backtest.isLosing)|)) ∧
     (runResEx.trades.filter Backtest.isWinning ≠ [] →
       runResEx.trades.filter Backtest.isLosing = [] →
       runResEx.profit_factor = .posInf)) :=
  ⟨rfl, c5_profit_factor_spec cfgZeroEx buyStrategyEx [bar0Ex, bar1Ex] runResEx rfl⟩
